import Mathlib

/-!
Shallow embedding of the token store / renewal subsystem of the
`scoopit-api-rs` crate (files `src/lib.rs` and `src/access_token_store.rs`),
together with theorems settling the specification claims about it.

Modelling conventions:
* unix timestamps (`u64` seconds) are `Nat`; no arithmetic in the source can
  overflow 64 bits on the values involved, so no modular reduction is needed;
* the opaque bearer-token string is modelled by `TokenStr`, which records the
  only property of the string the code ever inspects: whether
  `jsonwebtoken::dangerous_insecure_decode` succeeds on it and, if so, which
  claims it yields;
* `anyhow::Error` values produced by the renewal path are opaque to the code,
  so the renewer's error type is a type parameter `E`; the `.context(...)`
  wrapping in `get_access_token` does not change which error is propagated and
  is modelled as the identity;
* the async network call is the collaborator `renewer : String → Except E AccessToken`
  (given a refresh token, produce a new token or fail), exactly the role of
  `AccessTokenRenewer::renew_token`;
* the tokio tasks spawned by `schedule_renewal` are recorded as the list of
  armed deadlines (`tasks`); the body each task runs is modelled separately by
  `renew_if_needed_log_error`.
-/

namespace Scoopit

/-- Model of `Claims` (`src/lib.rs`): the only claim the code reads is the
optional `exp` field. -/
structure Claims where
  exp : Option Nat
deriving DecidableEq, Repr

/-- Model of the access-token string as seen through
`jsonwebtoken::dangerous_insecure_decode::<Claims>`: either a token the
decoder accepts, carrying its decoded claims, or one it rejects. -/
inductive TokenStr where
  | jwt (claims : Claims)
  | malformed
deriving DecidableEq, Repr

/-- Result of `jsonwebtoken::dangerous_insecure_decode::<Claims>` on a token
string, as modelled by `TokenStr`. -/
def dangerous_insecure_decode : TokenStr → Option Claims
  | .jwt c => some c
  | .malformed => none

/-- Model of `AccessTokenRenew` (`src/lib.rs`). -/
structure AccessTokenRenew where
  expires_at : Nat
  refresh_token : String
deriving DecidableEq, Repr

/-- Model of `AccessToken` (`src/lib.rs`). -/
structure AccessToken where
  access_token : TokenStr
  renew : Option AccessTokenRenew
deriving DecidableEq, Repr

/-- Model of `AccessTokenResponse` (`src/oauth.rs`). -/
structure AccessTokenResponse where
  access_token : TokenStr
  expires_in : Nat
  refresh_token : Option String
deriving DecidableEq, Repr

/-- The two distinguishable construction-time failures of
`TryFrom<AccessTokenResponse> for AccessToken` (`src/lib.rs`): the propagated
`jsonwebtoken` decode error, and the
`anyhow!("Refresh token provided but access token does not expires!")`
error the spec calls `InvalidCredential`. -/
inductive TryFromError where
  | jwtDecodeError
  | invalidCredential
deriving DecidableEq, Repr

/-- Model of `impl TryFrom<AccessTokenResponse> for AccessToken`
(`src/lib.rs` lines 278-303): decode the token (propagating a decode failure
with `?`), then, when a refresh token is present, require the decoded `exp`
claim; `expires_in` from the response is discarded. -/
def AccessToken.try_from (r : AccessTokenResponse) : Except TryFromError AccessToken :=
  match dangerous_insecure_decode r.access_token with
  | none => .error .jwtDecodeError
  | some decoded =>
    match r.refresh_token with
    | none => .ok { access_token := r.access_token, renew := none }
    | some refresh_token =>
      match decoded.exp with
      | none => .error .invalidCredential
      | some expires_at =>
        .ok { access_token := r.access_token
              renew := some { expires_at := expires_at, refresh_token := refresh_token } }

/-- C5: a response that carries a refresh grant but whose access token has no
decodable `exp` claim fails at construction time: with the
`InvalidCredential` error when the token decodes but lacks `exp`
(Scenario C), and with the propagated decode error when the token does not
decode at all. -/
theorem try_from_refresh_grant_without_exp_fails (r : AccessTokenResponse) (g : String)
    (hg : r.refresh_token = some g) :
    (∀ c : Claims, dangerous_insecure_decode r.access_token = some c → c.exp = none →
      AccessToken.try_from r = .error .invalidCredential)
    ∧ (dangerous_insecure_decode r.access_token = none →
      ∃ err, AccessToken.try_from r = .error err) := by
  constructor
  · intro c hc hexp
    simp [AccessToken.try_from, hc, hg, hexp]
  · intro hc
    exact ⟨.jwtDecodeError, by simp [AccessToken.try_from, hc]⟩

/-- Witness for C5 at a concrete input: a decodable token without `exp`
together with a refresh grant yields `InvalidCredential`. -/
theorem try_from_refresh_grant_without_exp_fails_witness :
    AccessToken.try_from ⟨.jwt ⟨none⟩, 3600, some "grant"⟩ = .error .invalidCredential :=
  (try_from_refresh_grant_without_exp_fails ⟨.jwt ⟨none⟩, 3600, some "grant"⟩ "grant" rfl).1
    ⟨none⟩ rfl rfl

/-- C6 counterexample: the claim says construction succeeds for every
response with no refresh grant, but `try_from` decodes the token before
looking at the refresh grant, so a response whose token the JWT decoder
rejects fails construction even though no refresh grant is present. -/
theorem try_from_no_refresh_grant_can_fail :
    AccessToken.try_from ⟨.malformed, 3600, none⟩ = .error .jwtDecodeError
    ∧ ¬ ∃ tok, AccessToken.try_from ⟨.malformed, 3600, none⟩ = .ok tok := by
  constructor
  · rfl
  · intro ⟨tok, htok⟩
    simp [AccessToken.try_from, dangerous_insecure_decode] at htok

/-- C6 amended: for every response with no refresh grant whose access token
the JWT decoder accepts, construction succeeds with `renew = none`,
regardless of whether the decoded claims contain `exp`. -/
theorem try_from_no_refresh_grant_decodable_ok (r : AccessTokenResponse) (c : Claims)
    (hc : dangerous_insecure_decode r.access_token = some c)
    (hrt : r.refresh_token = none) :
    AccessToken.try_from r = .ok { access_token := r.access_token, renew := none } := by
  simp [AccessToken.try_from, hc, hrt]

/-- Witness for the amended C6 at a concrete input: a decodable token with no
`exp` claim and no refresh grant constructs a non-renewing credential. -/
theorem try_from_no_refresh_grant_decodable_ok_witness :
    AccessToken.try_from ⟨.jwt ⟨none⟩, 3600, none⟩ =
      .ok { access_token := .jwt ⟨none⟩, renew := none } :=
  try_from_no_refresh_grant_decodable_ok ⟨.jwt ⟨none⟩, 3600, none⟩ ⟨none⟩ rfl rfl

/-- Deadline computed by `AccessTokenStore::schedule_renewal`
(`src/access_token_store.rs` lines 94-105): `expires_at + 300` unix-seconds
when renewal metadata is present, no arming otherwise. -/
def schedule_renewal_deadline (tok : AccessToken) : Option Nat :=
  tok.renew.map fun renew => renew.expires_at + 300

/-- Model of `renew_date.duration_since(SystemTime::now()).ok()`
(`src/access_token_store.rs` line 107): the wait before the spawned task
first attempts renewal, `none` when the deadline is already strictly in the
past (`duration_since` returns `Err`, discarded by `.ok()`). -/
def wait_until (now deadline : Nat) : Option Nat :=
  if now ≤ deadline then some (deadline - now) else none

/-- Model of `AccessTokenStore`: the stored credential behind the `RwLock`,
plus the armed scheduler tasks, each recorded by the deadline
`schedule_renewal` computed when spawning it. -/
structure AccessTokenStore where
  access_token : AccessToken
  tasks : List Nat
deriving DecidableEq, Repr

/-- Model of `AccessTokenStore::new` (`src/access_token_store.rs` lines
73-92): store the token and call `schedule_renewal` once, which arms one
task when the token has renewal metadata and none otherwise. -/
def AccessTokenStore.new (token : AccessToken) : AccessTokenStore :=
  { access_token := token, tasks := (schedule_renewal_deadline token).toList }

/-- Model of `AccessTokenStore::renew_token_if_needed`
(`src/access_token_store.rs` lines 134-169), with the current time and the
network collaborator passed explicitly. Returns the result, the store after
the call, and the number of network exchanges performed (0 or 1):
* no renewal metadata, or `now < expires_at`: return `Ok` without touching
  the network or the store;
* otherwise call the renewer with the captured refresh token (the read lock
  is released first; each step here is what happens under one lock
  acquisition); on failure propagate the error leaving the store unchanged;
  on success replace the stored token and call `schedule_renewal`, arming a
  further task for the new token. -/
def renew_token_if_needed {E : Type} (renewer : String → Except E AccessToken) (now : Nat)
    (s : AccessTokenStore) : Except E Unit × AccessTokenStore × Nat :=
  match s.access_token.renew with
  | none => (.ok (), s, 0)
  | some renew =>
    if now < renew.expires_at then (.ok (), s, 0)
    else
      match renewer renew.refresh_token with
      | .error e => (.error e, s, 1)
      | .ok new_access_token =>
        (.ok (), { access_token := new_access_token
                   tasks := s.tasks ++ (schedule_renewal_deadline new_access_token).toList }, 1)

/-- Model of `AccessTokenStore::get_access_token`
(`src/access_token_store.rs` lines 171-176): run `renew_token_if_needed`,
propagate its error (the `.context(...)` wrapper is the identity on which
error is seen), otherwise read and return the stored token string. -/
def get_access_token {E : Type} (renewer : String → Except E AccessToken) (now : Nat)
    (s : AccessTokenStore) : Except E TokenStr × AccessTokenStore × Nat :=
  match renew_token_if_needed renewer now s with
  | (.error e, s', n) => (.error e, s', n)
  | (.ok _, s', n) => (.ok s'.access_token.access_token, s', n)

/-- Expiry test made by `renew_token_if_needed`: a token is expired when its
renewal metadata is present and `expires_at ≤ now`. -/
def isExpired (now : Nat) (tok : AccessToken) : Bool :=
  match tok.renew with
  | none => false
  | some renew => decide (renew.expires_at ≤ now)

/-- C1: when the stored credential is expired at call time (`renew` present
and `expires_at ≤ now`), `get_access_token` performs exactly one renewal
exchange in the calling context and returns the freshly obtained token
string (storing the fresh credential), or propagates the renewer's error;
the stale stored token string is never returned. -/
theorem get_access_token_expired_renews {E : Type} (renewer : String → Except E AccessToken)
    (now : Nat) (s : AccessTokenStore) (renew : AccessTokenRenew)
    (hr : s.access_token.renew = some renew) (hexp : renew.expires_at ≤ now) :
    (∀ fresh, renewer renew.refresh_token = .ok fresh →
      get_access_token renewer now s =
        (.ok fresh.access_token,
          { access_token := fresh
            tasks := s.tasks ++ (schedule_renewal_deadline fresh).toList }, 1))
    ∧ (∀ e, renewer renew.refresh_token = .error e →
      get_access_token renewer now s = (.error e, s, 1)) := by
  constructor
  · intro fresh hfresh
    simp [get_access_token, renew_token_if_needed, hr, Nat.not_lt.mpr hexp, hfresh]
  · intro e he
    simp [get_access_token, renew_token_if_needed, hr, Nat.not_lt.mpr hexp, he]

/-- Witness for C1 at a concrete input: an expired stored credential with a
succeeding renewer yields the fresh token with one network call. -/
theorem get_access_token_expired_renews_witness :
    get_access_token
        (fun _ => (Except.ok ⟨.jwt ⟨some 50⟩, some ⟨50, "g2"⟩⟩ : Except Unit AccessToken)) 10
        ⟨⟨.jwt ⟨some 10⟩, some ⟨10, "g"⟩⟩, [310]⟩ =
      (.ok (.jwt ⟨some 50⟩), ⟨⟨.jwt ⟨some 50⟩, some ⟨50, "g2"⟩⟩, [310, 350]⟩, 1) :=
  (get_access_token_expired_renews
      (fun _ => (Except.ok ⟨.jwt ⟨some 50⟩, some ⟨50, "g2"⟩⟩ : Except Unit AccessToken)) 10
      ⟨⟨.jwt ⟨some 10⟩, some ⟨10, "g"⟩⟩, [310]⟩ ⟨10, "g"⟩ rfl (by decide)).1
    ⟨.jwt ⟨some 50⟩, some ⟨50, "g2"⟩⟩ rfl

/-- C2: on a credential that is valid at call time the renewal routine is a
no-op succeeding with zero network calls and `get_access_token` returns the
stored token string unchanged; consequently a second invocation of the
routine immediately after a first call that left a non-expired credential
performs zero additional network calls. -/
theorem renew_token_if_needed_valid_noop {E : Type} (renewer : String → Except E AccessToken)
    (now : Nat) (s : AccessTokenStore) :
    (isExpired now s.access_token = false →
      renew_token_if_needed renewer now s = (.ok (), s, 0)
      ∧ get_access_token renewer now s = (.ok s.access_token.access_token, s, 0))
    ∧ (∀ res s' n, renew_token_if_needed renewer now s = (res, s', n) →
      isExpired now s'.access_token = false →
      renew_token_if_needed renewer now s' = (.ok (), s', 0)) := by
  have key : ∀ t : AccessTokenStore, isExpired now t.access_token = false →
      renew_token_if_needed renewer now t = (.ok (), t, 0) := by
    intro t ht
    unfold renew_token_if_needed
    match hrt : t.access_token.renew with
    | none => simp
    | some renew =>
      simp only [isExpired, hrt, decide_eq_false_iff_not, Nat.not_le] at ht
      simp [ht]
  constructor
  · intro hvalid
    refine ⟨key s hvalid, ?_⟩
    simp [get_access_token, key s hvalid]
  · intro res s' n hrun hvalid
    exact key s' hvalid

/-- Witness for C2 at a concrete input: a credential expiring in the future
is returned unchanged with zero network calls, and running the routine again
on the result again performs zero calls. -/
theorem renew_token_if_needed_valid_noop_witness :
    get_access_token (fun _ => Except.error ()) 5 ⟨⟨.jwt ⟨some 10⟩, some ⟨10, "g"⟩⟩, [310]⟩ =
      (.ok (.jwt ⟨some 10⟩), ⟨⟨.jwt ⟨some 10⟩, some ⟨10, "g"⟩⟩, [310]⟩, 0)
    ∧ renew_token_if_needed (fun _ => Except.error ()) 5
        ⟨⟨.jwt ⟨some 10⟩, some ⟨10, "g"⟩⟩, [310]⟩ =
      (.ok (), ⟨⟨.jwt ⟨some 10⟩, some ⟨10, "g"⟩⟩, [310]⟩, 0) := by
  have h := renew_token_if_needed_valid_noop (fun _ => Except.error ()) 5
    ⟨⟨.jwt ⟨some 10⟩, some ⟨10, "g"⟩⟩, [310]⟩
  exact ⟨(h.1 (by decide)).2, h.2 (Except.ok ()) ⟨⟨.jwt ⟨some 10⟩, some ⟨10, "g"⟩⟩, [310]⟩ 0
    (h.1 (by decide)).1 (by decide)⟩

/-- C3: when the renewer fails, `renew_token_if_needed` and
`get_access_token` propagate the error and leave the stored credential (and
the armed tasks) unchanged; more generally an error outcome never changes
the store, so the stored state is replaced only after a successful renewal. -/
theorem renew_failure_keeps_store {E : Type} (renewer : String → Except E AccessToken)
    (now : Nat) (s : AccessTokenStore) :
    (∀ renew e, s.access_token.renew = some renew → renew.expires_at ≤ now →
      renewer renew.refresh_token = .error e →
      renew_token_if_needed renewer now s = (.error e, s, 1)
      ∧ get_access_token renewer now s = (.error e, s, 1))
    ∧ (∀ e s' n, renew_token_if_needed renewer now s = (.error e, s', n) → s' = s) := by
  constructor
  · intro renew e hr hexp he
    constructor
    · simp [renew_token_if_needed, hr, Nat.not_lt.mpr hexp, he]
    · simp [get_access_token, renew_token_if_needed, hr, Nat.not_lt.mpr hexp, he]
  · intro e s' n hrun
    unfold renew_token_if_needed at hrun
    match hrt : s.access_token.renew with
    | none => simp [hrt] at hrun
    | some renew =>
      simp only [hrt] at hrun
      by_cases hlt : now < renew.expires_at
      · simp [hlt] at hrun
      · simp only [hlt, if_false] at hrun
        match hres : renewer renew.refresh_token with
        | .error e0 => simp [hres] at hrun; exact hrun.2.1.symm
        | .ok fresh => simp [hres] at hrun

/-- Witness for C3 at a concrete input: a failing renewer on an expired
credential propagates the error and the store is unchanged. -/
theorem renew_failure_keeps_store_witness :
    get_access_token (fun _ => Except.error "boom") 10 ⟨⟨.jwt ⟨some 10⟩, some ⟨10, "g"⟩⟩, [310]⟩ =
      (.error "boom", ⟨⟨.jwt ⟨some 10⟩, some ⟨10, "g"⟩⟩, [310]⟩, 1) :=
  ((renew_failure_keeps_store (fun _ => Except.error "boom") 10
      ⟨⟨.jwt ⟨some 10⟩, some ⟨10, "g"⟩⟩, [310]⟩).1 ⟨10, "g"⟩ "boom" rfl (by decide) rfl).2

/-- C7: `schedule_renewal` arms a task if and only if the credential has
renewal metadata; the armed deadline is `expires_at + 300` seconds, strictly
after nominal expiry; a credential with `renew = none` arms nothing, so a
store built from it has no background task at all. -/
theorem schedule_renewal_arming (tok : AccessToken) :
    (tok.renew = none →
      schedule_renewal_deadline tok = none ∧ (AccessTokenStore.new tok).tasks = [])
    ∧ (∀ renew, tok.renew = some renew →
      schedule_renewal_deadline tok = some (renew.expires_at + 300)
      ∧ renew.expires_at < renew.expires_at + 300
      ∧ (AccessTokenStore.new tok).tasks = [renew.expires_at + 300]) := by
  constructor
  · intro hnone
    simp [schedule_renewal_deadline, AccessTokenStore.new, hnone]
  · intro renew hsome
    refine ⟨by simp [schedule_renewal_deadline, hsome], by omega, ?_⟩
    simp [AccessTokenStore.new, schedule_renewal_deadline, hsome]

/-- Witness for C7 at concrete inputs: a non-renewing credential arms
nothing; a renewing one with `expires_at = 10` arms exactly one task at
deadline 310. -/
theorem schedule_renewal_arming_witness :
    (AccessTokenStore.new ⟨.jwt ⟨none⟩, none⟩).tasks = []
    ∧ (AccessTokenStore.new ⟨.jwt ⟨some 10⟩, some ⟨10, "g"⟩⟩).tasks = [310] :=
  ⟨((schedule_renewal_arming ⟨.jwt ⟨none⟩, none⟩).1 rfl).2,
    ((schedule_renewal_arming ⟨.jwt ⟨some 10⟩, some ⟨10, "g"⟩⟩).2 ⟨10, "g"⟩ rfl).2.2⟩

/-- C9 counterexample: construct the store from a renewable credential
expiring at 1000 (one task armed, deadline 1300) and run a successful
synchronous `get_access_token` at time 1000. `renew_token_if_needed` calls
`schedule_renewal` for the fresh credential while the task armed at
construction is still sleeping (its deadline 1300 is in the future), so two
scheduler tasks are concurrently active — the count is not bounded by one. -/
theorem single_scheduler_task_violated :
    (get_access_token
        (fun _ => (Except.ok ⟨.jwt ⟨some 5000⟩, some ⟨5000, "h"⟩⟩ : Except Unit AccessToken))
        1000 (AccessTokenStore.new ⟨.jwt ⟨some 1000⟩, some ⟨1000, "g"⟩⟩)).2.1.tasks = [1300, 5300]
    ∧ ¬ (get_access_token
        (fun _ => (Except.ok ⟨.jwt ⟨some 5000⟩, some ⟨5000, "h"⟩⟩ : Except Unit AccessToken))
        1000 (AccessTokenStore.new ⟨.jwt ⟨some 1000⟩,
          some ⟨1000, "g"⟩⟩)).2.1.tasks.length ≤ 1 := by
  have h : (get_access_token
      (fun _ => (Except.ok ⟨.jwt ⟨some 5000⟩, some ⟨5000, "h"⟩⟩ : Except Unit AccessToken))
      1000 (AccessTokenStore.new ⟨.jwt ⟨some 1000⟩,
        some ⟨1000, "g"⟩⟩)).2.1.tasks = [1300, 5300] := rfl
  exact ⟨h, by rw [h]; decide⟩

/-- C9 amended: exactly one scheduler task is armed at store construction
when (and only when) the credential has renewal metadata, and it re-arms
itself; but a successful synchronous renewal producing a renewal-capable
credential arms one additional task while the previously armed task remains
active, so the count of concurrently active scheduler tasks is not bounded
by one (it reaches two after a synchronous renewal). -/
theorem scheduler_task_count (tok : AccessToken) :
    ((AccessTokenStore.new tok).tasks.length = if tok.renew.isSome then 1 else 0)
    ∧ (∀ (E : Type) (renewer : String → Except E AccessToken) (now : Nat)
        (s : AccessTokenStore) (renew : AccessTokenRenew) (fresh : AccessToken)
        (renewF : AccessTokenRenew),
        s.access_token.renew = some renew → renew.expires_at ≤ now →
        renewer renew.refresh_token = .ok fresh → fresh.renew = some renewF →
        (renew_token_if_needed renewer now s).2.1.tasks.length = s.tasks.length + 1) := by
  constructor
  · match h : tok.renew with
    | none => simp [AccessTokenStore.new, schedule_renewal_deadline, h]
    | some renew => simp [AccessTokenStore.new, schedule_renewal_deadline, h]
  · intro E renewer now s renew fresh renewF hr hexp hfresh hrf
    simp [renew_token_if_needed, hr, Nat.not_lt.mpr hexp, hfresh,
      schedule_renewal_deadline, hrf]

/-- Witness for the amended C9 at concrete inputs: one task armed at
construction, two armed after a successful synchronous renewal. -/
theorem scheduler_task_count_witness :
    (AccessTokenStore.new ⟨.jwt ⟨some 1000⟩, some ⟨1000, "g"⟩⟩).tasks.length =
      (if (AccessToken.renew ⟨.jwt ⟨some 1000⟩, some ⟨1000, "g"⟩⟩).isSome then 1 else 0)
    ∧ (renew_token_if_needed
        (fun _ => (Except.ok ⟨.jwt ⟨some 5000⟩, some ⟨5000, "h"⟩⟩ : Except Unit AccessToken))
        1000 ⟨⟨.jwt ⟨some 1000⟩, some ⟨1000, "g"⟩⟩, [1300]⟩).2.1.tasks.length =
      List.length [1300] + 1 :=
  ⟨(scheduler_task_count ⟨.jwt ⟨some 1000⟩, some ⟨1000, "g"⟩⟩).1,
    (scheduler_task_count ⟨.jwt ⟨some 1000⟩, some ⟨1000, "g"⟩⟩).2 Unit
      (fun _ => (Except.ok ⟨.jwt ⟨some 5000⟩, some ⟨5000, "h"⟩⟩ : Except Unit AccessToken))
      1000 ⟨⟨.jwt ⟨some 1000⟩, some ⟨1000, "g"⟩⟩, [1300]⟩ ⟨1000, "g"⟩
      ⟨.jwt ⟨some 5000⟩, some ⟨5000, "h"⟩⟩ ⟨5000, "h"⟩ rfl (by decide) rfl rfl⟩

/-- Model of `AccessTokenStore::renew_if_needed_log_error`
(`src/access_token_store.rs` lines 116-132) chained with the re-arming done
by `schedule_renewal`, run for `fuel` renewal attempts. Time is discrete
unix-seconds and advances only by the sleeps in the source: the initial
`sleep(wait_time)` and the 1-second back-off after a failure. Each level:
sleep until `wake := now + wait.getD 0`, run `renew_token_if_needed`
(restricted to the credential; the armed-task bookkeeping is the chaining
itself): if no renewal is needed the task returns without re-arming; on a
successful renewal the store holds the fresh token and `schedule_renewal`
arms the continuation with the fresh deadline; on failure the error is
logged, the task sleeps 1 second and `schedule_renewal` re-arms with the
deadline of the unchanged token. Returns (renewer invocations, final time,
final stored token). -/
def renew_if_needed_log_error {E : Type} (renewer : String → Except E AccessToken) :
    Nat → Nat → AccessToken → Option Nat → Nat × Nat × AccessToken
  | 0, now, tok, _ => (0, now, tok)
  | fuel + 1, now, tok, wait =>
    let wake := now + wait.getD 0
    match tok.renew with
    | none => (0, wake, tok)
    | some renew =>
      if wake < renew.expires_at then (0, wake, tok)
      else
        match renewer renew.refresh_token with
        | .ok fresh =>
          match schedule_renewal_deadline fresh with
          | none => (1, wake, fresh)
          | some d =>
            let next := renew_if_needed_log_error renewer fuel wake fresh (wait_until wake d)
            (next.1 + 1, next.2)
        | .error _ =>
          match schedule_renewal_deadline tok with
          | none => (1, wake + 1, tok)
          | some d =>
            let next :=
              renew_if_needed_log_error renewer fuel (wake + 1) tok (wait_until (wake + 1) d)
            (next.1 + 1, next.2)

/-- Helper: with an always-failing renewer and the wake instant at or past
the deadline, every fuel level performs exactly one failed attempt, the
token is never replaced, and attempts run on the 1-second back-off cadence. -/
theorem renew_log_error_always_fail {E : Type} (e : E) (tok : AccessToken)
    (renew : AccessTokenRenew) (hr : tok.renew = some renew) :
    ∀ fuel now wait, renew.expires_at + 300 ≤ now + (Option.getD wait 0) →
      renew_if_needed_log_error (fun _ => Except.error e) fuel now tok wait =
        (fuel, (if fuel = 0 then now else now + (Option.getD wait 0) + fuel), tok) := by
  intro fuel
  induction fuel with
  | zero => intro now wait _; simp [renew_if_needed_log_error]
  | succ n ih =>
    intro now wait hd
    have hexp : ¬ now + (Option.getD wait 0) < renew.expires_at := by omega
    have hsched : schedule_renewal_deadline tok = some (renew.expires_at + 300) := by
      simp [schedule_renewal_deadline, hr]
    have hwait : wait_until (now + (Option.getD wait 0) + 1) (renew.expires_at + 300) = none := by
      unfold wait_until
      rw [if_neg (by omega)]
    have hnext := ih (now + (Option.getD wait 0) + 1) none (by omega)
    simp only [renew_if_needed_log_error, hr, hexp, if_false, hsched, hwait]
    rw [hnext]
    rcases n with _ | m <;> simp <;> omega

/-- C8: drive the scheduler task (armed exactly as `schedule_renewal` arms
it, with `wait_until now (expires_at + 300)`) with a renewer that always
fails: every one of the `fuel` wakes performs one failed exchange (so with
`fuel ≥ 2` the loop retries at least twice), it re-arms unconditionally
after the fixed 1-second back-off rather than the computed deadline — the
whole `fuel`-attempt run finishes by `max now (expires_at + 300) + fuel` —
and the stored credential is never replaced. -/
theorem scheduler_retries_on_failure {E : Type} (e : E) (fuel now : Nat) (tok : AccessToken)
    (renew : AccessTokenRenew) (hr : tok.renew = some renew) :
    (renew_if_needed_log_error (fun _ => Except.error e) fuel now tok
        (wait_until now (renew.expires_at + 300))).1 = fuel
    ∧ (renew_if_needed_log_error (fun _ => Except.error e) fuel now tok
        (wait_until now (renew.expires_at + 300))).2.2 = tok
    ∧ (1 ≤ fuel → (renew_if_needed_log_error (fun _ => Except.error e) fuel now tok
        (wait_until now (renew.expires_at + 300))).2.1 =
          max now (renew.expires_at + 300) + fuel) := by
  have hwake : now + (Option.getD (wait_until now (renew.expires_at + 300)) 0) =
      max now (renew.expires_at + 300) := by
    unfold wait_until
    split <;> simp only [Option.getD_some, Option.getD_none] <;> omega
  have h := renew_log_error_always_fail e tok renew hr fuel now
    (wait_until now (renew.expires_at + 300)) (by omega)
  refine ⟨by rw [h], by rw [h], fun hfuel => ?_⟩
  rw [h]
  show (if fuel = 0 then now
    else now + (Option.getD (wait_until now (renew.expires_at + 300)) 0) + fuel) = _
  rw [if_neg (by omega), hwake]

/-- Witness for C8 at a concrete input: two fuel levels, an always-failing
renewer, deadline 310 armed at time 0 — two failed attempts, final time
312, token unchanged. -/
theorem scheduler_retries_on_failure_witness :
    (renew_if_needed_log_error (fun _ => Except.error ()) 2 0
        (⟨.jwt ⟨some 10⟩, some ⟨10, "g"⟩⟩ : AccessToken) (wait_until 0 (10 + 300))).1 = 2
    ∧ (renew_if_needed_log_error (fun _ => Except.error ()) 2 0
        (⟨.jwt ⟨some 10⟩, some ⟨10, "g"⟩⟩ : AccessToken) (wait_until 0 (10 + 300))).2.2 =
      (⟨.jwt ⟨some 10⟩, some ⟨10, "g"⟩⟩ : AccessToken)
    ∧ (renew_if_needed_log_error (fun _ => Except.error ()) 2 0
        (⟨.jwt ⟨some 10⟩, some ⟨10, "g"⟩⟩ : AccessToken) (wait_until 0 (10 + 300))).2.1 = 312 := by
  have h := scheduler_retries_on_failure () 2 0
    (⟨.jwt ⟨some 10⟩, some ⟨10, "g"⟩⟩ : AccessToken) ⟨10, "g"⟩ rfl
  refine ⟨h.1, h.2.1, ?_⟩
  rw [h.2.2 (by decide)]
  decide

/-- C10: whenever the computed deadline `expires_at + 300` is at or before
the current time, the `duration_since` computation yields no wait (`none`
when the deadline is strictly past, the failed computation being discarded
by `.ok()`), the spawned task wakes at the current instant with zero total
sleep, and its first fuel level already performs the renewal exchange —
no error and no panic arise from the past deadline. -/
theorem schedule_renewal_past_deadline_immediate {E : Type}
    (renewer : String → Except E AccessToken) (now : Nat) (tok : AccessToken)
    (renew : AccessTokenRenew) (hr : tok.renew = some renew)
    (hd : renew.expires_at + 300 ≤ now) :
    (renew.expires_at + 300 < now → wait_until now (renew.expires_at + 300) = none)
    ∧ (Option.getD (wait_until now (renew.expires_at + 300)) 0) = 0
    ∧ (renew_if_needed_log_error renewer 1 now tok
        (wait_until now (renew.expires_at + 300))).1 = 1 := by
  have hgd : (Option.getD (wait_until now (renew.expires_at + 300)) 0) = 0 := by
    unfold wait_until
    split <;> simp only [Option.getD_some, Option.getD_none] <;> omega
  refine ⟨fun hlt => ?_, hgd, ?_⟩
  · unfold wait_until
    rw [if_neg (by omega)]
  · have hexp : ¬ now + (Option.getD (wait_until now (renew.expires_at + 300)) 0) <
        renew.expires_at := by omega
    simp only [renew_if_needed_log_error, hr, hexp, if_false]
    rcases hres : renewer renew.refresh_token with e | fresh
    · simp [hres, schedule_renewal_deadline, hr, renew_if_needed_log_error]
    · rcases hf : fresh.renew with _ | renewF <;>
        simp [hres, schedule_renewal_deadline, hf, renew_if_needed_log_error]

/-- Witness for C10 at a concrete input: deadline 310 already passed at time
1000 — no wait is armed and the single fuel level performs the exchange. -/
theorem schedule_renewal_past_deadline_immediate_witness :
    (10 + 300 < 1000 → wait_until 1000 (10 + 300) = none)
    ∧ (Option.getD (wait_until 1000 (10 + 300)) 0) = 0
    ∧ (renew_if_needed_log_error (fun _ => Except.error ()) 1 1000
        (⟨.jwt ⟨some 10⟩, some ⟨10, "g"⟩⟩ : AccessToken) (wait_until 1000 (10 + 300))).1 = 1 := by
  have h := schedule_renewal_past_deadline_immediate (fun _ => (Except.error () :
    Except Unit AccessToken)) 1000 (⟨.jwt ⟨some 10⟩, some ⟨10, "g"⟩⟩ : AccessToken)
    ⟨10, "g"⟩ rfl (by decide)
  exact ⟨fun _ => h.1 (by decide), h.2.1, h.2.2⟩

/-- Program counter of one caller running `get_access_token` against the
shared store, split at the lock boundaries of `renew_token_if_needed`
(`src/access_token_store.rs` lines 134-176): `ready` = about to take the
scoped read lock and inspect the credential; `net` = read lock released,
about to await the network exchange with the captured refresh token; `write`
= about to take the write lock and replace the stored credential; `readOut`
= about to take the read lock for the final read in `get_access_token`;
`done` = returned. -/
inductive Phase (E : Type) where
  | ready
  | net (grant : String)
  | write (tok : AccessToken)
  | readOut
  | done (res : Except E TokenStr)

/-- Shared configuration of two concurrent `get_access_token` calls: the
credential in the `RwLock` cell, both program counters, whether each caller
has performed its network exchange, and which caller performed the most
recent write. The task-arming side effect of a successful renewal does not
touch the cell or either result and is not tracked here. -/
structure RaceCfg (E : Type) where
  stored : AccessToken
  p1 : Phase E
  p2 : Phase E
  called1 : Bool
  called2 : Bool
  lastWrite : Option Bool

/-- One atomic step of a single caller (everything done under one lock
acquisition, or the network await): returns the new phase, the value this
step writes to the cell (if it is the write step), and whether this step
performed the network exchange. Direct translation of
`renew_token_if_needed` plus the final read of `get_access_token`. -/
def taskStep {E : Type} (renewer : String → Except E AccessToken) (now : Nat)
    (stored : AccessToken) : Phase E → Phase E × Option AccessToken × Bool
  | .ready =>
    match stored.renew with
    | none => (.readOut, none, false)
    | some renew =>
      if now < renew.expires_at then (.readOut, none, false)
      else (.net renew.refresh_token, none, false)
  | .net grant =>
    match renewer grant with
    | .ok fresh => (.write fresh, none, true)
    | .error e => (.done (.error e), none, true)
  | .write tok => (.readOut, some tok, false)
  | .readOut => (.done (.ok stored.access_token), none, false)
  | .done res => (.done res, none, false)

/-- Scheduler step of the two-caller race: `who = false` steps caller 1,
`who = true` steps caller 2; the write of the stepped caller, if any, lands
in the shared cell (the `RwLock` serializes the two writes — whichever write
step runs later overwrites the other). -/
def raceStep {E : Type} (renewer1 renewer2 : String → Except E AccessToken) (now : Nat)
    (c : RaceCfg E) (who : Bool) : RaceCfg E :=
  match who with
  | false =>
    let s := taskStep renewer1 now c.stored c.p1
    { stored := (s.2.1).getD c.stored, p1 := s.1, p2 := c.p2,
      called1 := c.called1 || s.2.2, called2 := c.called2,
      lastWrite := if (s.2.1).isSome then some false else c.lastWrite }
  | true =>
    let s := taskStep renewer2 now c.stored c.p2
    { stored := (s.2.1).getD c.stored, p1 := c.p1, p2 := s.1,
      called1 := c.called1, called2 := c.called2 || s.2.2,
      lastWrite := if (s.2.1).isSome then some true else c.lastWrite }

/-- Run the race under an arbitrary interleaving of the two callers. -/
def raceRun {E : Type} (renewer1 renewer2 : String → Except E AccessToken) (now : Nat)
    (sched : List Bool) (c : RaceCfg E) : RaceCfg E :=
  sched.foldl (raceStep renewer1 renewer2 now) c

/-- Invariant of the race from initial credential `st` when caller 1's
renewer always yields `tokA` and caller 2's always yields `tokB`: the cell
holds `st` until the first write and afterwards the token of the most
recent writer; a caller at its write step writes its own renewer's token; a
caller that has exchanged is at its write step or some write has landed;
finished callers finished with `Ok`. -/
structure RaceInv (st tokA tokB : AccessToken) {E : Type} (c : RaceCfg E) : Prop where
  stored_init : c.lastWrite = none → c.stored = st
  stored_last : ∀ w, c.lastWrite = some w → c.stored = (if w then tokB else tokA)
  write1 : ∀ t, c.p1 = .write t → t = tokA
  write2 : ∀ t, c.p2 = .write t → t = tokB
  called1_write : c.called1 = true → (∃ t, c.p1 = .write t) ∨ c.lastWrite.isSome = true
  called2_write : c.called2 = true → (∃ t, c.p2 = .write t) ∨ c.lastWrite.isSome = true
  done1_ok : ∀ res, c.p1 = .done res → ∃ s, res = .ok s
  done2_ok : ∀ res, c.p2 = .done res → ∃ s, res = .ok s

/-- The invariant is preserved by every scheduler step. -/
theorem raceInv_step {E : Type} (st tokA tokB : AccessToken) (now : Nat)
    (c : RaceCfg E) (who : Bool) (h : RaceInv st tokA tokB c) :
    RaceInv st tokA tokB
      (raceStep (fun _ => Except.ok tokA) (fun _ => Except.ok tokB) now c who) := by
  obtain ⟨stored, p1, p2, c1, c2, lw⟩ := c
  obtain ⟨hA, hB, hC, hD, hE, hF, hG, hH⟩ := h
  cases who
  · cases p1 with
    | ready =>
      have base : RaceInv st tokA tokB (⟨stored, .readOut, p2, c1, c2, lw⟩ : RaceCfg E) :=
        ⟨hA, hB, nofun, hD,
          fun hc => (hE hc).elim (fun ⟨t, ht⟩ => absurd ht nofun) .inr, hF, nofun, hH⟩
      rcases hsr : stored.renew with _ | renew0
      · simpa [raceStep, taskStep, hsr] using base
      · by_cases hlt : now < renew0.expires_at
        · simpa [raceStep, taskStep, hsr, hlt] using base
        · have hnet0 : RaceInv st tokA tokB
              (⟨stored, .net renew0.refresh_token, p2, c1, c2, lw⟩ : RaceCfg E) :=
            ⟨hA, hB, nofun, hD,
              fun hc => (hE hc).elim (fun ⟨t, ht⟩ => absurd ht nofun) .inr, hF, nofun, hH⟩
          simpa [raceStep, taskStep, hsr, hlt] using hnet0
    | net g =>
      simp only [raceStep, taskStep]
      exact ⟨by simpa using hA, by simpa using hB, fun t ht => (Phase.write.inj ht).symm,
        by simpa using hD, fun _ => .inl ⟨tokA, rfl⟩, by simpa using hF, nofun,
        by simpa using hH⟩
    | write t =>
      have htA : t = tokA := hC t rfl
      simp only [raceStep, taskStep]
      refine ⟨by simp, ?_, nofun, by simpa using hD, fun _ => .inr rfl, fun _ => .inr rfl,
        nofun, by simpa using hH⟩
      intro w hw
      simp only [Option.isSome_some, if_true] at hw
      obtain rfl : w = false := (Option.some.inj hw).symm
      simpa using htA
    | readOut =>
      simp only [raceStep, taskStep]
      exact ⟨by simpa using hA, by simpa using hB, nofun, by simpa using hD,
        fun hc => (hE (by simpa using hc)).elim (fun ⟨t, ht⟩ => absurd ht nofun)
          (fun hs => .inr (by simpa using hs)), fun hc => (hF (by simpa using hc)).elim
          (fun ⟨t, ht⟩ => .inl ⟨t, by simpa using ht⟩) (fun hs => .inr (by simpa using hs)),
        fun res hres => ⟨stored.access_token, (Phase.done.inj hres).symm⟩, by simpa using hH⟩
    | done res =>
      simp only [raceStep, taskStep]
      exact ⟨by simpa using hA, by simpa using hB, nofun, by simpa using hD,
        fun hc => (hE (by simpa using hc)).elim (fun ⟨t, ht⟩ => absurd ht nofun)
          (fun hs => .inr (by simpa using hs)), fun hc => (hF (by simpa using hc)).elim
          (fun ⟨t, ht⟩ => .inl ⟨t, by simpa using ht⟩) (fun hs => .inr (by simpa using hs)),
        fun res1 hres1 => hG res1 (by simpa using hres1), by simpa using hH⟩
  · cases p2 with
    | ready =>
      have base : RaceInv st tokA tokB (⟨stored, p1, .readOut, c1, c2, lw⟩ : RaceCfg E) :=
        ⟨hA, hB, hC, nofun, hE,
          fun hc => (hF hc).elim (fun ⟨t, ht⟩ => absurd ht nofun) .inr, hG, nofun⟩
      rcases hsr : stored.renew with _ | renew0
      · simpa [raceStep, taskStep, hsr] using base
      · by_cases hlt : now < renew0.expires_at
        · simpa [raceStep, taskStep, hsr, hlt] using base
        · have hnet0 : RaceInv st tokA tokB
              (⟨stored, p1, .net renew0.refresh_token, c1, c2, lw⟩ : RaceCfg E) :=
            ⟨hA, hB, hC, nofun, hE,
              fun hc => (hF hc).elim (fun ⟨t, ht⟩ => absurd ht nofun) .inr, hG, nofun⟩
          simpa [raceStep, taskStep, hsr, hlt] using hnet0
    | net g =>
      simp only [raceStep, taskStep]
      exact ⟨by simpa using hA, by simpa using hB, by simpa using hC,
        fun t ht => (Phase.write.inj ht).symm, by simpa using hE,
        fun _ => .inl ⟨tokB, rfl⟩, by simpa using hG, nofun⟩
    | write t =>
      have htB : t = tokB := hD t rfl
      simp only [raceStep, taskStep]
      refine ⟨by simp, ?_, by simpa using hC, nofun, fun _ => .inr rfl, fun _ => .inr rfl,
        by simpa using hG, nofun⟩
      intro w hw
      simp only [Option.isSome_some, if_true] at hw
      obtain rfl : w = true := (Option.some.inj hw).symm
      simpa using htB
    | readOut =>
      simp only [raceStep, taskStep]
      exact ⟨by simpa using hA, by simpa using hB, by simpa using hC, nofun,
        fun hc => (hE (by simpa using hc)).elim (fun ⟨t, ht⟩ => .inl ⟨t, by simpa using ht⟩)
          (fun hs => .inr (by simpa using hs)), fun hc => (hF (by simpa using hc)).elim
          (fun ⟨t, ht⟩ => absurd ht nofun) (fun hs => .inr (by simpa using hs)),
        by simpa using hG,
        fun res hres => ⟨stored.access_token, (Phase.done.inj hres).symm⟩⟩
    | done res =>
      simp only [raceStep, taskStep]
      exact ⟨by simpa using hA, by simpa using hB, by simpa using hC, nofun,
        fun hc => (hE (by simpa using hc)).elim (fun ⟨t, ht⟩ => .inl ⟨t, by simpa using ht⟩)
          (fun hs => .inr (by simpa using hs)), fun hc => (hF (by simpa using hc)).elim
          (fun ⟨t, ht⟩ => absurd ht nofun) (fun hs => .inr (by simpa using hs)),
        by simpa using hG, fun res2 hres2 => hH res2 (by simpa using hres2)⟩

/-- The invariant holds after any interleaving from the initial
configuration. -/
theorem raceInv_run {E : Type} (st tokA tokB : AccessToken) (now : Nat) (sched : List Bool) :
    RaceInv st tokA tokB
      (raceRun (fun _ => Except.ok tokA) (fun _ => Except.ok tokB) now sched
        ⟨st, .ready, .ready, false, false, none⟩ : RaceCfg E) := by
  have step : ∀ (c : RaceCfg E) (sched0 : List Bool), RaceInv st tokA tokB c →
      RaceInv st tokA tokB
        (raceRun (fun _ => Except.ok tokA) (fun _ => Except.ok tokB) now sched0 c) := by
    intro c sched0
    induction sched0 generalizing c with
    | nil => exact fun h => h
    | cons w ws ih =>
      intro h
      exact ih _ (raceInv_step st tokA tokB now c w h)
  exact step _ sched ⟨fun _ => rfl, nofun, nofun, nofun, nofun, nofun, nofun, nofun⟩

/-- Final configuration of two concurrent `get_access_token` calls, started
on a shared store holding `st`, whose renewers always succeed with `tokA`
(caller 1) and `tokB` (caller 2), under interleaving `sched`. -/
def raceFinal {E : Type} (st tokA tokB : AccessToken) (now : Nat)
    (sched : List Bool) : RaceCfg E :=
  raceRun (fun _ => Except.ok tokA) (fun _ => Except.ok tokB) now sched
    ⟨st, .ready, .ready, false, false, none⟩

/-- C4: for every interleaving of two concurrent `get_access_token` calls on
an expired credential in which both callers performed their own network
exchange (nothing in the code prevents such interleavings) and both
finished, both calls succeeded, and the final stored credential is exactly
the token of whichever caller's write completed last (the other renewal's
result was overwritten and discarded). -/
theorem get_access_token_concurrent_race {E : Type} (st tokA tokB : AccessToken)
    (renew : AccessTokenRenew) (now : Nat) (sched : List Bool)
    (res1 res2 : Except E TokenStr)
    (hr : st.renew = some renew) (hexp : renew.expires_at ≤ now)
    (hp1 : (raceFinal st tokA tokB now sched : RaceCfg E).p1 = .done res1)
    (hp2 : (raceFinal st tokA tokB now sched : RaceCfg E).p2 = .done res2)
    (hc1 : (raceFinal st tokA tokB now sched : RaceCfg E).called1 = true)
    (hc2 : (raceFinal st tokA tokB now sched : RaceCfg E).called2 = true) :
    (∃ s, res1 = .ok s) ∧ (∃ s, res2 = .ok s)
    ∧ ∃ w, (raceFinal st tokA tokB now sched : RaceCfg E).lastWrite = some w
      ∧ (raceFinal st tokA tokB now sched : RaceCfg E).stored = (if w then tokB else tokA) := by
  have hinv : RaceInv st tokA tokB (raceFinal st tokA tokB now sched : RaceCfg E) :=
    raceInv_run st tokA tokB now sched
  refine ⟨hinv.done1_ok res1 hp1, hinv.done2_ok res2 hp2, ?_⟩
  rcases hw : (raceFinal st tokA tokB now sched : RaceCfg E).lastWrite with _ | w
  · rcases hinv.called1_write hc1 with ⟨t, ht⟩ | hsome
    · rw [hp1] at ht
      exact absurd ht nofun
    · rw [hw] at hsome
      simp at hsome
  · exact ⟨w, rfl, hinv.stored_last w hw⟩

/-- Witness for C4 at a concrete input: expired credential, interleaving in
which both callers read, both exchange, caller 1 writes first and caller 2
writes last — both calls finish `Ok` and the stored credential is caller
2's token, caller 1's renewal result having been discarded. -/
theorem get_access_token_concurrent_race_witness :
    (∃ s, (Except.ok (.jwt ⟨some 60⟩) : Except Unit TokenStr) = .ok s)
    ∧ (∃ s, (Except.ok (.jwt ⟨some 60⟩) : Except Unit TokenStr) = .ok s)
    ∧ ∃ w, (raceFinal (⟨.jwt ⟨some 10⟩, some ⟨10, "g"⟩⟩ : AccessToken)
        (⟨.jwt ⟨some 50⟩, some ⟨50, "a"⟩⟩ : AccessToken)
        (⟨.jwt ⟨some 60⟩, some ⟨60, "b"⟩⟩ : AccessToken) 10
        [false, true, false, true, false, true, false, true] : RaceCfg Unit).lastWrite = some w
      ∧ (raceFinal (⟨.jwt ⟨some 10⟩, some ⟨10, "g"⟩⟩ : AccessToken)
        (⟨.jwt ⟨some 50⟩, some ⟨50, "a"⟩⟩ : AccessToken)
        (⟨.jwt ⟨some 60⟩, some ⟨60, "b"⟩⟩ : AccessToken) 10
        [false, true, false, true, false, true, false, true] : RaceCfg Unit).stored =
        (if w then (⟨.jwt ⟨some 60⟩, some ⟨60, "b"⟩⟩ : AccessToken)
          else (⟨.jwt ⟨some 50⟩, some ⟨50, "a"⟩⟩ : AccessToken)) :=
  get_access_token_concurrent_race (⟨.jwt ⟨some 10⟩, some ⟨10, "g"⟩⟩ : AccessToken)
    (⟨.jwt ⟨some 50⟩, some ⟨50, "a"⟩⟩ : AccessToken)
    (⟨.jwt ⟨some 60⟩, some ⟨60, "b"⟩⟩ : AccessToken) ⟨10, "g"⟩ 10
    [false, true, false, true, false, true, false, true]
    (Except.ok (.jwt ⟨some 60⟩)) (Except.ok (.jwt ⟨some 60⟩))
    rfl (by decide) rfl rfl rfl rfl

end Scoopit
